import Mathlib

/-!
Verification of the hook dispatch and orchestration layer of this repository
(`hooks/post_tool_use.py` and `hooks/stop.py`) against its specification.

The dispatcher is embedded shallowly: its pure routing and filtering logic is
translated function by function, and the effectful parts (subprocess execution,
the asyncio event loop) are modelled by explicit outcome values and by a trace
of start/finish events.  Machine-level details that no claim depends on (byte
decoding of subprocess output, wall-clock time) are abstracted into the
`ProcResult` alternatives that the source itself distinguishes.
-/

namespace Dispatch

/-- List-of-characters test: `pat` is an initial segment of `s`. -/
def leadsWith : List Char → List Char → Bool
  | [], _ => true
  | _ :: _, [] => false
  | p :: ps, c :: cs => p == c && leadsWith ps cs

/-- Python's `pat in s` substring test, on character lists. -/
def occursIn (pat : List Char) : List Char → Bool
  | [] => leadsWith pat []
  | c :: cs => leadsWith pat (c :: cs) || occursIn pat cs

/-- Number of (possibly overlapping) occurrences of `pat` in `s`. -/
def countOcc (pat : List Char) : List Char → Nat
  | [] => if pat.isEmpty then 1 else 0
  | c :: cs => (if leadsWith pat (c :: cs) then 1 else 0) + countOcc pat cs

/-- Splitting a character list at every `|`, as Python's `str.split("|")` /
`re` alternation parsing does for metacharacter-free patterns. -/
def splitPipe : List Char → List (List Char)
  | [] => [[]]
  | c :: cs =>
    match splitPipe cs with
    | [] => [[]]
    | g :: gs => if c == '|' then [] :: g :: gs else (c :: g) :: gs

/-- Python truthiness of an optional string (`None` and `""` are falsy). -/
def truthyOpt : Option String → Bool
  | none => false
  | some s => !s.data.isEmpty

/-- `HookCommand` dataclass of `post_tool_use.py`. -/
structure HookCommand where
  type : String
  command : String
  asyncable : Bool
deriving DecidableEq, Repr

/-- `HookMatcher` dataclass of `post_tool_use.py`. -/
structure HookMatcher where
  matcher : String
  hooks : List HookCommand
deriving DecidableEq, Repr

/-- Embeds `re.match(f"^({matcher})$", tool_name)` for the alternation-of-
literal-identifiers patterns used by the registry: the leading `^` coincides
with `re.match`'s own left anchoring, and the trailing `$` matches at the end
of the string or just before one final newline (Python `re` semantics for `$`
outside MULTILINE mode).  Hence the tool name matches iff it equals one of the
alternatives, or equals an alternative followed by a single `\n`. -/
def match_tool (tool_name matcher : String) : Bool :=
  let alts := splitPipe matcher.data
  let t := tool_name.data
  alts.contains t || (t.getLast? == some '\n' && alts.contains t.dropLast)

/-- The specification's matching rule, taken from its words: the pattern is an
alternation of literal identifiers, anchored so that it matches the entire
discriminator and never a substring of it. -/
def spec_match_whole (tool_name matcher : String) : Bool :=
  (splitPipe matcher.data).contains tool_name.data

/-- `is_self_hook` of `post_tool_use.py`: the command string contains the
dispatcher's own entry-point name. -/
def is_self_hook (command : String) : Bool :=
  occursIn "post_tool_use.py".data command.data

/-- `TODOLIST_CHECK_CMD` shell snippet of `post_tool_use.py` (apostrophes are
written with their hexadecimal escape). -/
def TODOLIST_CHECK_CMD : String :=
  "input=$(cat); file_path=$(printf \x27%s\x27 \"$input\" | jq -r \x27.tool_input.file_path // .tool_input.target_file // \"\"\x27); if [[ \"$file_path\" =~ ai-todolist\\.md$ ]] && [[ -f \"ai-todolist.md\" ]]; then printf \x27%s\x27 \"$input\" | ~/.claude/hooks/post-tool-use/remind-ai-todolist.sh; fi"

/-- The static registry `POST_TOOL_USE_CONFIG` of `post_tool_use.py`. -/
def POST_TOOL_USE_CONFIG : List HookMatcher := [
  { matcher := "Write|Edit|MultiEdit",
    hooks := [
      { type := "command", command := "~/.claude/hooks/post-tool-use/system-reminder.sh", asyncable := false },
      { type := "command", command := "uv run ~/.claude/hooks/post-tool-use/inject_conftest.py", asyncable := false },
      { type := "command", command := "uv run ~/.claude/hooks/post-tool-use/inject_knowledge.py", asyncable := false },
      { type := "command", command := "uv run ~/.claude/hooks/post-tool-use/inject_language_guide.py", asyncable := false },
      { type := "command", command := "uv run ~/.claude/hooks/post-tool-use/typescript_typecheck.py", asyncable := true },
      { type := "command", command := "uv run ~/.claude/hooks/post-tool-use/python_auto_fix_init_reexport.py", asyncable := false },
      { type := "command", command := "uv run ~/.claude/hooks/post-tool-use/python_lint_and_format.py", asyncable := false },
      { type := "command", command := "uv run ~/.claude/hooks/post-tool-use/python_type_checker.py", asyncable := false },
      { type := "command", command := "uv run ~/.claude/hooks/post-tool-use/python_check_any_return.py", asyncable := true },
      { type := "command", command := "uv run ~/.claude/hooks/post-tool-use/check_typeddict_total_false.py", asyncable := true },
      { type := "command", command := "uv run ~/.claude/hooks/post-tool-use/python_check_comments.py", asyncable := true },
      { type := "command", command := "uv run ~/.claude/hooks/post-tool-use/python_check_nested_imports.py", asyncable := true },
      { type := "command", command := "uv run ~/.claude/hooks/post-tool-use/python_check_match_case.py", asyncable := true },
      { type := "command", command := "uv run ~/.claude/hooks/post-tool-use/check_corrupted_encoding.py", asyncable := true },
      { type := "command", command := TODOLIST_CHECK_CMD, asyncable := false }
    ] },
  { matcher := "Read",
    hooks := [
      { type := "command", command := "uv run ~/.claude/hooks/post-tool-use/inject_knowledge.py", asyncable := false },
      { type := "command", command := "uv run ~/.claude/hooks/post-tool-use/inject_language_guide.py", asyncable := false },
      { type := "command", command := "uv run ~/.claude/hooks/post-tool-use/inject_conftest.py", asyncable := false }
    ] },
  { matcher := "Task",
    hooks := [
      { type := "command", command := "~/.claude/hooks/post-tool-use/remind-execution.sh", asyncable := false }
    ] }
]

/-- Outcome of one attempt to run a hook subprocess, as distinguished by the
try/except structure of `execute_hook_async`: the process completed with some
return code and decoded output streams, the 30-second `asyncio.wait_for`
timeout expired, or launching/communicating raised an `Exception`. -/
inductive ProcResult where
  | finished (returncode : Int) (stdout stderr : String)
  | timeout
  | launchFail (msg : String)
deriving DecidableEq, Repr

/-- `execute_hook_async` of `post_tool_use.py` (and the textually identical
executor of `stop.py`): maps the raw subprocess fate to the returned triple
`(returncode or 0, stdout, stderr)`; a timeout or a launch failure is
converted into a synthesized non-fatal outcome instead of an exception. -/
def execute_hook_async : ProcResult → Int × String × String
  | .finished rc out err => (if rc == 0 then 0 else rc, out, err)
  | .timeout => (1, "", "Hook execution timed out")
  | .launchFail m => (1, "", "Hook execution failed: " ++ m)

/-- What `asyncio.gather(..., return_exceptions=True)` hands back for one
awaited task: either the triple computed by `execute_hook_async` running to
completion on some `ProcResult`, or a `BaseException` that escaped it (for
example a cancellation, which `except Exception` does not catch) and was
captured by `gather`. -/
inductive AsyncOutcome where
  | res (pr : ProcResult)
  | exn
deriving DecidableEq, Repr

/-- `asyncio.gather` returns the results in the order the awaitables were
passed to it, regardless of the order in which they complete; the
`completionOrder` argument models the wall-clock completion schedule and,
faithfully to `gather`'s contract, does not influence the returned list. -/
def gather (tasks : List α) (completionOrder : List Nat) : List α := tasks

/-- The child environment built by `execute_hook_async` in `post_tool_use.py`:
a copy of the parent environment with `POST_TOOL_USE_RUNNING` set to `"1"` and
`CLAUDE_CODE_CWD` set to the effective working directory. -/
def child_env (parent : String → Option String) (cwd : String) : String → Option String :=
  fun k =>
    if k == "POST_TOOL_USE_RUNNING" then some "1"
    else if k == "CLAUDE_CODE_CWD" then some cwd
    else parent k

/-- The dispatcher's entry check `if os.environ.get("POST_TOOL_USE_RUNNING"):`
(truthy iff the variable is present with a non-empty value). -/
def env_get_running (envf : String → Option String) : Bool :=
  match envf "POST_TOOL_USE_RUNNING" with
  | none => false
  | some s => !s.data.isEmpty

/-- The shapes of the standard-input on which `_main` returns a value: empty
input (no parse is attempted), non-empty input that fails `json.loads`
(the `JSONDecodeError` is swallowed), and a parsed JSON object viewed through
its optional string fields `tool_name` and `cwd`.  The remaining shape —
valid JSON that is not an object — never reaches any of the code this view
feeds: `input_json.get("cwd", ...)` raises an uncaught `AttributeError`
first; that class of input, together with non-string field values, is
modelled by `StdinShape` and `dispatcher_process` below. -/
inductive StdinView where
  | empty
  | malformed
  | parsed (tool_name : Option String) (cwd : Option String)
deriving DecidableEq, Repr

/-- Resolution of the tool name in `_main`: the `--tool` argument wins when
truthy; otherwise, a successfully parsed standard input contributes its
`tool_name` field; otherwise the argument value (possibly absent) stands. -/
def resolveTool (arg : Option String) (stdin : StdinView) : Option String :=
  if truthyOpt arg then arg
  else
    match stdin with
    | .parsed tn _ => tn
    | _ => arg

/-- The router loop of `_main`: walk the registry in order and append the hook
list of every rule whose matcher matches the tool name. -/
def matchingHooks : List HookMatcher → String → List HookCommand
  | [], _ => []
  | c :: rest, t => (if match_tool t c.matcher then c.hooks else []) ++ matchingHooks rest t

/-- The `valid_hooks` filter of `_main`: keep command-typed hooks with a
non-empty command string that is not a self-reference. -/
def validHooks (hooks : List HookCommand) : List HookCommand :=
  hooks.filter fun h => h.type == "command" && !h.command.data.isEmpty && !is_self_hook h.command

/-- The concurrency-eligible partition of `_main`. -/
def async_hooks (valid : List HookCommand) : List HookCommand :=
  valid.filter fun h => h.asyncable

/-- The sequential partition of `_main`. -/
def sync_hooks (valid : List HookCommand) : List HookCommand :=
  valid.filter fun h => !h.asyncable

/-- The aggregation loop of `_main` over the gathered concurrent batch,
threading the `claude_needs_to_know` flag and the text printed to standard
error: an exception captured by `gather` is skipped; a completed outcome with
return code 2 and non-empty stderr raises the flag and appends its stderr. -/
def asyncLoop : List (HookCommand × AsyncOutcome) → Bool → String → Bool × String
  | [], b, s => (b, s)
  | (_, r) :: rest, b, s =>
    match r with
    | .exn => asyncLoop rest b s
    | .res pr =>
      let o := execute_hook_async pr
      if o.1 == 2 && !o.2.2.data.isEmpty then asyncLoop rest true (s ++ o.2.2)
      else asyncLoop rest b s

/-- The concurrent phase of `_main`: build one task per async hook, gather
them all (results in submission order), and run the aggregation loop over the
hook/result pairs. -/
def asyncPhase (hooks : List HookCommand) (abeh : HookCommand → AsyncOutcome)
    (sched : List Nat) : Bool × String :=
  asyncLoop (hooks.zip (gather (hooks.map abeh) sched)) false ""

/-- The sequential loop of `_main`: each hook is executed and fully awaited in
turn; a blocking outcome prints a `Hook Executed:` header line and then the
hook's stderr. -/
def syncLoop (sbeh : HookCommand → ProcResult) : List HookCommand → Bool → String → Bool × String
  | [], b, s => (b, s)
  | h :: rest, b, s =>
    let o := execute_hook_async (sbeh h)
    if o.1 == 2 && !o.2.2.data.isEmpty then
      syncLoop sbeh rest true (s ++ ("Hook Executed: " ++ h.command ++ "\n" ++ o.2.2))
    else syncLoop sbeh rest b s

/-- `_main` of `post_tool_use.py`, returning the process exit code paired with
the full text written to standard error.  `abeh` gives each concurrent hook's
gathered result and `sbeh` each sequential hook's raw subprocess fate. -/
def dispatcher_main (envf : String → Option String) (arg : Option String)
    (stdin : StdinView) (cfg : List HookMatcher)
    (abeh : HookCommand → AsyncOutcome) (sbeh : HookCommand → ProcResult)
    (sched : List Nat) : Int × String :=
  if env_get_running envf then (0, "")
  else
    match resolveTool arg stdin with
    | none => (1, "Error: tool_name not provided\n")
    | some t =>
      if t.data.isEmpty then (1, "Error: tool_name not provided\n")
      else
        let matching := matchingHooks cfg t
        if matching.isEmpty then (0, "No hooks found for tool: " ++ t ++ "\n")
        else
          let valid := validHooks matching
          if valid.isEmpty then (0, "")
          else
            let ar := asyncPhase (async_hooks valid) abeh sched
            let fin := syncLoop sbeh (sync_hooks valid) ar.1 ar.2
            (if fin.1 then 2 else 0, fin.2)

/-- `STOP_HOOK_CONFIG` of `stop.py`. -/
def STOP_HOOK_CONFIG : List HookCommand := [
  { type := "command", command := "uv run ~/.claude/hooks/stop/check_todos_completed.py", asyncable := true }
]

/-- The mutable state of the aggregation loop of `stop.py`'s `_main`:
the `should_block` flag, the joined `all_stdout` and `all_stderr` buffers, and
the error lines already printed to standard error for exception results. -/
structure StopState where
  should_block : Bool
  out_acc : String
  err_acc : String
  exn_lines : String
deriving DecidableEq, Repr

/-- The aggregation loop of `stop.py`'s `_main`: an exception result prints an
error line immediately; a completed outcome contributes its stdout to
`all_stdout` when non-empty and, when blocking (return code 2 with non-empty
stderr), raises the flag and appends its stderr to `all_stderr`.  `excRepr`
models the `{result=}` rendering of the exception object. -/
def stopLoop (excRepr : HookCommand → String) :
    List (HookCommand × AsyncOutcome) → StopState → StopState
  | [], st => st
  | (h, r) :: rest, st =>
    match r with
    | .exn =>
      stopLoop excRepr rest
        { st with exn_lines :=
            st.exn_lines ++ "Error executing hook: " ++ h.command ++ ". result=" ++ excRepr h ++ "\n" }
    | .res pr =>
      let o := execute_hook_async pr
      let st1 := if !o.2.1.data.isEmpty then { st with out_acc := st.out_acc ++ o.2.1 } else st
      let st2 :=
        if o.1 == 2 && !o.2.2.data.isEmpty then
          { st1 with should_block := true, err_acc := st1.err_acc ++ o.2.2 }
        else st1
      stopLoop excRepr rest st2

/-- `_main` of `stop.py`: gather all configured hooks at once (results in
submission order), run the aggregation loop, and return the exit code, the
text written to standard output, and the text written to standard error (the
error lines for exceptions precede the joined blocking stderr). -/
def stop_main (cfg : List HookCommand) (beh : HookCommand → AsyncOutcome)
    (excRepr : HookCommand → String) (sched : List Nat) : Int × String × String :=
  if cfg.isEmpty then (0, "", "")
  else
    let st := stopLoop excRepr (cfg.zip (gather (cfg.map beh) sched)) ⟨false, "", "", ""⟩
    (if st.should_block then 2 else 0, st.out_acc, st.exn_lines ++ st.err_acc)

/-- Observable scheduling events of one dispatcher run: a hook subprocess
starts, or its outcome is fully resolved (normally or by timeout). -/
inductive Ev where
  | start (h : HookCommand)
  | finish (h : HookCommand)
deriving DecidableEq, Repr

/-- Selection of list elements by a sequence of indices; used to express an
arbitrary completion order of the gathered batch. -/
def applyIdx (sched : List Nat) (l : List HookCommand) : List HookCommand :=
  sched.filterMap fun i => l.get? i

/-- Event trace of the execution phase of `_main`: every concurrent hook's
task is created before `asyncio.gather` is awaited, the gather resolves every
concurrent outcome (in the wall-clock order `sched`) before control returns,
and only then does the sequential loop run each remaining hook to completion,
one at a time, in registry order. -/
def dispatchTrace (valid : List HookCommand) (sched : List Nat) : List Ev :=
  (async_hooks valid).map Ev.start
    ++ (applyIdx sched (async_hooks valid)).map Ev.finish
    ++ (sync_hooks valid).flatMap fun h => [Ev.start h, Ev.finish h]

/-- Event trace of a whole `_main` run: every early-return path (re-entrancy
marker set, unresolvable tool name, no matching hooks, no valid hooks) emits
no subprocess event at all. -/
def mainTrace (envf : String → Option String) (arg : Option String)
    (stdin : StdinView) (cfg : List HookMatcher) (sched : List Nat) : List Ev :=
  if env_get_running envf then []
  else
    match resolveTool arg stdin with
    | none => []
    | some t =>
      if t.data.isEmpty then []
      else
        let matching := matchingHooks cfg t
        if matching.isEmpty then []
        else
          let valid := validHooks matching
          if valid.isEmpty then [] else dispatchTrace valid sched

/-- The specification's blocking criterion: exit code equals the sentinel 2
and the stderr text is non-empty. -/
def blockingOutcome (o : Int × String × String) : Bool :=
  o.1 == 2 && !o.2.2.data.isEmpty

/-- Whether a concurrent hook's gathered result is a blocking outcome (an
escaped exception never is). -/
def asyncBlocking (abeh : HookCommand → AsyncOutcome) (h : HookCommand) : Bool :=
  match abeh h with
  | .exn => false
  | .res pr => blockingOutcome (execute_hook_async pr)

/-- Whether a sequential hook's outcome is blocking. -/
def syncBlocking (sbeh : HookCommand → ProcResult) (h : HookCommand) : Bool :=
  blockingOutcome (execute_hook_async (sbeh h))

/-- The router as the specification words it: the concatenation, in registry
order, of the descriptor lists of the rules whose pattern matches the
discriminator as a whole string. -/
def routerSpecWhole (cfg : List HookMatcher) (t : String) : List HookCommand :=
  (cfg.filter fun c => spec_match_whole t c.matcher).flatMap fun c => c.hooks

/-- The router as the amended specification words it: a rule also matches
when the discriminator is one of its alternatives followed by one trailing
newline (Python `$` semantics). -/
def routerSpecAmended (cfg : List HookMatcher) (t : String) : List HookCommand :=
  (cfg.filter fun c =>
      spec_match_whole t c.matcher
        || (t.data.getLast? == some '\n' && (splitPipe c.matcher.data).contains t.data.dropLast)).flatMap
    fun c => c.hooks

/-- The specification's prediction for the concurrent batch's combined stderr
in claim C8's words: the blocking stderr texts concatenated in the order the
futures resolve, i.e. in the wall-clock completion order of the batch. -/
def resolutionOrderStderr (hooks : List HookCommand) (abeh : HookCommand → AsyncOutcome)
    (sched : List Nat) : String :=
  (applyIdx sched hooks).foldl
    (fun acc h =>
      match abeh h with
      | .exn => acc
      | .res pr =>
        let o := execute_hook_async pr
        if blockingOutcome o then acc ++ o.2.2 else acc)
    ""

/-- A JSON value found in a field where `_main` expects an optional string,
classified by the distinctions `_main` actually makes: the field is absent
(`dict.get` yields `None`), holds a string, holds another falsy value (0,
false, null, an empty list or object — all of which fail `if not tool_name`
exactly like an absent field), or holds another truthy value.  A truthy
non-string carries its Python `str()` rendering, which `_main` would
interpolate into the no-hooks diagnostic. -/
inductive JStr where
  | absent
  | str (s : String)
  | falsyOther
  | truthyOther (rendered : String)
deriving DecidableEq, Repr

/-- The full classification of the standard input of one run: empty (no
parse attempted), non-empty non-JSON (`json.JSONDecodeError`, swallowed),
valid JSON that is not an object — on which `input_json.get("cwd", ...)` at
line 204 raises an uncaught `AttributeError` — or a JSON object viewed
through its `tool_name` and `cwd` fields. -/
inductive StdinShape where
  | empty
  | malformed
  | nonObject
  | object (tool_name : JStr) (cwd : JStr)
deriving DecidableEq, Repr

/-- Restriction of a non-crashing input to the view `dispatcher_main`
consumes: a falsy non-string `tool_name` field behaves exactly like an
absent one (both fail Python truthiness at `if not tool_name`), and the
`cwd` field influences no dispatcher output (a non-string `cwd` makes each
hook launch raise inside `execute_hook_async`'s `try`, which the behaviour
oracles already cover as `ProcResult.launchFail`).  The `nonObject` and
truthy-non-string cases never reach `dispatcher_main`; their image here is
immaterial. -/
def toStdinView : StdinShape → StdinView
  | .empty => .empty
  | .malformed => .malformed
  | .nonObject => .malformed
  | .object (.str s) _ => .parsed (some s) none
  | .object _ _ => .parsed none none

/-- The value bound to `tool_name` after lines 193-206 of `_main`,
classified: falsy (`None`, `""`, or a falsy non-string — the error-return
path), a truthy string, or a truthy non-string (which `re.match` later
rejects with a `TypeError`). -/
inductive ToolVal where
  | missing
  | strVal (t : String)
  | otherVal (rendered : String)
deriving DecidableEq, Repr

/-- Resolution of the tool name over the full input classification: a truthy
`--tool` argument wins and is always a string; otherwise a parsed object
contributes its `tool_name` field with Python truthiness deciding between
the error path, a usable string, and a truthy non-string. -/
def resolveToolVal (arg : Option String) (s : StdinShape) : ToolVal :=
  if truthyOpt arg then
    match arg with
    | some t => .strVal t
    | none => .missing
  else
    match s with
    | .object tn _ =>
      match tn with
      | .str t => if t.data.isEmpty then .missing else .strVal t
      | .truthyOther r => .otherVal r
      | _ => .missing
    | _ => .missing

/-- Termination of one whole dispatcher process run: either `_main` returned
and the process exited through `sys.exit` with that code, having printed the
given stderr text, or an exception escaped `_main` — nothing catches it
(`asyncio.run` re-raises, `sys.exit(main())` is never reached), so the
interpreter prints a traceback to stderr and terminates. -/
inductive ProcTermination where
  | exited (code : Int) (stderrText : String)
  | crash
deriving DecidableEq, Repr

/-- Process exit code of a termination: CPython terminates with exit code 1
when an uncaught exception reaches the top level. -/
def exitCodeOf : ProcTermination → Int
  | .exited c _ => c
  | .crash => 1

/-- The whole dispatcher process (`post_tool_use.py` run as a script): the
re-entrancy check comes first (line 190, before stdin is parsed); then valid
non-object JSON input crashes at `input_json.get("cwd", ...)` with an
uncaught `AttributeError`; a falsy resolved tool name returns 1 with an
error message; a truthy non-string tool name reaches the router loop, whose
first `re.match` call raises an uncaught `TypeError` — unless the registry
is empty, in which case the loop body never runs and the no-hooks diagnostic
is printed with the value's rendering; a truthy string tool name dispatches
exactly as `dispatcher_main` describes. -/
def dispatcher_process (envf : String → Option String) (arg : Option String)
    (stdin : StdinShape) (cfg : List HookMatcher)
    (abeh : HookCommand → AsyncOutcome) (sbeh : HookCommand → ProcResult)
    (sched : List Nat) : ProcTermination :=
  if env_get_running envf then .exited 0 ""
  else
    match stdin with
    | .nonObject => .crash
    | _ =>
      match resolveToolVal arg stdin with
      | .missing => .exited 1 "Error: tool_name not provided\n"
      | .otherVal r =>
        match cfg with
        | [] => .exited 0 ("No hooks found for tool: " ++ r ++ "\n")
        | _ :: _ => .crash
      | .strVal _ =>
        .exited (dispatcher_main envf arg (toStdinView stdin) cfg abeh sbeh sched).1
          (dispatcher_main envf arg (toStdinView stdin) cfg abeh sbeh sched).2

/-- Scenario hook for claim C3: the async-eligible descriptor. -/
def c3AsyncHook : HookCommand := { type := "command", command := "run-ts-check", asyncable := true }

/-- Scenario hook for claim C3: the sequential descriptor. -/
def c3SyncHook : HookCommand := { type := "command", command := "run-lint", asyncable := false }

/-- Scenario registry for claim C3: one rule with two descriptors. -/
def c3Config : List HookMatcher := [{ matcher := "Write|Edit|MultiEdit", hooks := [c3AsyncHook, c3SyncHook] }]

/-- Scenario behaviours for claim C3: the async hook returns (0, "", ""). -/
def c3Abeh : HookCommand → AsyncOutcome := fun _ => .res (.finished 0 "" "")

/-- Scenario behaviours for claim C3: the sequential hook returns (2, "", "warn-me"). -/
def c3Sbeh : HookCommand → ProcResult := fun _ => .finished 2 "" "warn-me"

/-- The dispatcher run of claim C3's scenario. -/
def c3Run : Int × String :=
  dispatcher_main (fun _ => none) none (StdinView.parsed (some "Write") none) c3Config c3Abeh c3Sbeh []

/-- Benign behaviours used where a claim needs an arbitrary concrete behaviour. -/
def okAbeh : HookCommand → AsyncOutcome := fun _ => .res (.finished 0 "" "")

/-- Benign sequential behaviour used where a claim needs an arbitrary concrete behaviour. -/
def okSbeh : HookCommand → ProcResult := fun _ => .finished 0 "" ""

/-- Behaviour for claim C5's scenario: every subprocess times out. -/
def c5Sbeh : HookCommand → ProcResult := fun _ => .timeout

/-- Async behaviour for claim C5's scenario (no async hook matches "Task"). -/
def c5Abeh : HookCommand → AsyncOutcome := fun _ => .res .timeout

/-- Scenario hooks for claim C8: first concurrent hook. -/
def c8HookA : HookCommand := { type := "command", command := "check-a", asyncable := true }

/-- Scenario hooks for claim C8: second concurrent hook. -/
def c8HookB : HookCommand := { type := "command", command := "check-b", asyncable := true }

/-- Scenario registry for claim C8: one rule with two concurrent descriptors. -/
def c8Config : List HookMatcher := [{ matcher := "Write", hooks := [c8HookA, c8HookB] }]

/-- Scenario behaviours for claim C8: hook A blocks with stderr "A", hook B
with stderr "B". -/
def c8Abeh : HookCommand → AsyncOutcome := fun h =>
  if h == c8HookA then .res (.finished 2 "" "A") else .res (.finished 2 "" "B")

/-- The dispatcher run of claim C8's scenario, as a function of the completion
order of the gathered batch. -/
def c8Run (sched : List Nat) : Int × String :=
  dispatcher_main (fun _ => none) (some "Write") StdinView.empty c8Config c8Abeh (fun _ => .finished 0 "" "") sched

/-- Concrete valid hook list for claim C6's witness. -/
def c6Valid : List HookCommand :=
  [{ type := "command", command := "a-check", asyncable := true },
   { type := "command", command := "b-fix", asyncable := false }]

/-- A self-referential hook descriptor, for claim C7's witness. -/
def selfHookCmd : HookCommand :=
  { type := "command", command := "uv run ~/.claude/hooks/post_tool_use.py", asyncable := false }

/-- An ordinary hook descriptor, for claim C7's witness. -/
def otherHookCmd : HookCommand := { type := "command", command := "ruff check", asyncable := false }

/-- Hook whose gathered result is an escaped exception, for claim C10's witness. -/
def c10ExnHook : HookCommand := { type := "command", command := "haywire", asyncable := true }

/-- Sibling hook for claim C10's witness. -/
def c10OkHook : HookCommand := { type := "command", command := "well-behaved", asyncable := true }

/-- Behaviour for claim C10's witness: the first hook's task raises, the
sibling blocks with stderr "A". -/
def c10Abeh : HookCommand → AsyncOutcome := fun h =>
  if h == c10ExnHook then .exn else .res (.finished 2 "" "A")

/-- Registry for claim C2's witness: one rule, one sequential blocking hook. -/
def c2Config : List HookMatcher :=
  [{ matcher := "T", hooks := [{ type := "command", command := "run-check", asyncable := false }] }]

/-- Sequential behaviour for claim C2's witness: blocking outcome. -/
def c2Sbeh : HookCommand → ProcResult := fun _ => .finished 2 "" "stop!"

end Dispatch

namespace Dispatch

theorem match_tool_write : match_tool "Write" "Write|Edit|MultiEdit" = true := by decide

theorem match_tool_substring : match_tool "Writ" "Write|Edit|MultiEdit" = false := by decide

theorem self_hook_example : is_self_hook "uv run post_tool_use.py --x" = true := by decide

section LoopLemmas

variable (abeh : HookCommand → AsyncOutcome) (sbeh : HookCommand → ProcResult)

lemma zipMapCons (abeh : HookCommand → AsyncOutcome) (h : HookCommand) (rest : List HookCommand) :
    (h :: rest).zip ((h :: rest).map abeh) = (h, abeh h) :: rest.zip (rest.map abeh) := rfl

lemma asyncLoop_flag (l : List HookCommand) :
    ∀ b s, (asyncLoop (l.zip (l.map abeh)) b s).1 = (b || l.any (asyncBlocking abeh)) := by
  induction l with
  | nil => intro b s; simp [asyncLoop]
  | cons h rest ih =>
    intro b s
    cases habeh : abeh h with
    | exn =>
      rw [zipMapCons, habeh]
      simp only [asyncLoop]
      simp [ih, List.any_cons, asyncBlocking, habeh]
    | res pr =>
      rw [zipMapCons, habeh]
      simp only [asyncLoop]
      by_cases hb : ((execute_hook_async pr).1 == 2 && !(execute_hook_async pr).2.2.data.isEmpty) = true
      · rw [if_pos hb]
        simp [ih, List.any_cons, asyncBlocking, habeh, blockingOutcome, hb]
      · rw [if_neg hb]
        simp only [Bool.not_eq_true] at hb
        simp [ih, List.any_cons, asyncBlocking, habeh, blockingOutcome, hb]

lemma asyncLoop_ext (l : List HookCommand) :
    ∀ b s, ∃ tl, (asyncLoop (l.zip (l.map abeh)) b s).2 = s ++ tl := by
  induction l with
  | nil => intro b s; exact ⟨"", by simp [asyncLoop]⟩
  | cons h rest ih =>
    intro b s
    cases habeh : abeh h with
    | exn =>
      rw [zipMapCons, habeh]
      simp only [asyncLoop]
      exact ih b s
    | res pr =>
      rw [zipMapCons, habeh]
      simp only [asyncLoop]
      by_cases hb : ((execute_hook_async pr).1 == 2 && !(execute_hook_async pr).2.2.data.isEmpty) = true
      · rw [if_pos hb]
        obtain ⟨tl, htl⟩ := ih true (s ++ (execute_hook_async pr).2.2)
        exact ⟨(execute_hook_async pr).2.2 ++ tl, by rw [htl, String.append_assoc]⟩
      · rw [if_neg hb]; exact ih b s

lemma asyncLoop_contains (h : HookCommand) (pr : ProcResult)
    (hres : abeh h = .res pr) (hb : blockingOutcome (execute_hook_async pr) = true)
    (l : List HookCommand) (hmem : h ∈ l) :
    ∀ b s, ∃ a c,
      (asyncLoop (l.zip (l.map abeh)) b s).2 = a ++ (execute_hook_async pr).2.2 ++ c := by
  induction l with
  | nil => cases hmem
  | cons h0 rest ih =>
    intro b s
    rcases List.mem_cons.mp hmem with heq | hmem'
    · subst heq
      rw [zipMapCons, hres]
      simp only [asyncLoop]
      rw [if_pos (by simpa [blockingOutcome] using hb)]
      obtain ⟨tl, htl⟩ := asyncLoop_ext abeh rest true (s ++ (execute_hook_async pr).2.2)
      exact ⟨s, tl, by rw [htl, String.append_assoc]⟩
    · cases habeh : abeh h0 with
      | exn =>
        rw [zipMapCons, habeh]
        simp only [asyncLoop]
        exact ih hmem' b s
      | res pr0 =>
        rw [zipMapCons, habeh]
        simp only [asyncLoop]
        by_cases hb0 : ((execute_hook_async pr0).1 == 2 && !(execute_hook_async pr0).2.2.data.isEmpty) = true
        · rw [if_pos hb0]; exact ih hmem' true (s ++ (execute_hook_async pr0).2.2)
        · rw [if_neg hb0]; exact ih hmem' b s

lemma syncLoop_flag (l : List HookCommand) :
    ∀ b s, (syncLoop sbeh l b s).1 = (b || l.any (syncBlocking sbeh)) := by
  induction l with
  | nil => intro b s; simp [syncLoop]
  | cons h rest ih =>
    intro b s
    simp only [syncLoop]
    by_cases hb : ((execute_hook_async (sbeh h)).1 == 2 && !(execute_hook_async (sbeh h)).2.2.data.isEmpty) = true
    · rw [if_pos hb]
      simp [ih, List.any_cons, syncBlocking, blockingOutcome, hb]
    · rw [if_neg hb]
      simp only [Bool.not_eq_true] at hb
      simp [ih, List.any_cons, syncBlocking, blockingOutcome, hb]

lemma syncLoop_ext (l : List HookCommand) :
    ∀ b s, ∃ tl, (syncLoop sbeh l b s).2 = s ++ tl := by
  induction l with
  | nil => intro b s; exact ⟨"", by simp [syncLoop]⟩
  | cons h rest ih =>
    intro b s
    simp only [syncLoop]
    by_cases hb : ((execute_hook_async (sbeh h)).1 == 2 && !(execute_hook_async (sbeh h)).2.2.data.isEmpty) = true
    · rw [if_pos hb]
      obtain ⟨tl, htl⟩ :=
        ih true (s ++ ("Hook Executed: " ++ h.command ++ "\n" ++ (execute_hook_async (sbeh h)).2.2))
      exact ⟨"Hook Executed: " ++ h.command ++ "\n" ++ (execute_hook_async (sbeh h)).2.2 ++ tl,
        by rw [htl]; simp [String.append_assoc]⟩
    · rw [if_neg hb]; exact ih b s

lemma syncLoop_contains (h : HookCommand) (hb : syncBlocking sbeh h = true)
    (l : List HookCommand) (hmem : h ∈ l) :
    ∀ b s, ∃ a c,
      (syncLoop sbeh l b s).2 = a ++ (execute_hook_async (sbeh h)).2.2 ++ c := by
  induction l with
  | nil => cases hmem
  | cons h0 rest ih =>
    intro b s
    simp only [syncLoop]
    rcases List.mem_cons.mp hmem with heq | hmem'
    · subst heq
      rw [if_pos (by simpa [syncBlocking, blockingOutcome] using hb)]
      obtain ⟨tl, htl⟩ :=
        syncLoop_ext sbeh rest true
          (s ++ ("Hook Executed: " ++ h.command ++ "\n" ++ (execute_hook_async (sbeh h)).2.2))
      refine ⟨s ++ ("Hook Executed: " ++ h.command ++ "\n"), tl, ?_⟩
      rw [htl]; simp [String.append_assoc]
    · by_cases hb0 : ((execute_hook_async (sbeh h0)).1 == 2 && !(execute_hook_async (sbeh h0)).2.2.data.isEmpty) = true
      · rw [if_pos hb0]
        exact ih hmem' true (s ++ ("Hook Executed: " ++ h0.command ++ "\n" ++ (execute_hook_async (sbeh h0)).2.2))
      · rw [if_neg hb0]; exact ih hmem' b s

end LoopLemmas

section StopLemmas

variable (beh : HookCommand → AsyncOutcome) (er : HookCommand → String)

lemma stopLoop_flag (l : List HookCommand) :
    ∀ st, (stopLoop er (l.zip (l.map beh)) st).should_block
      = (st.should_block || l.any (asyncBlocking beh)) := by
  induction l with
  | nil => intro st; simp [stopLoop]
  | cons h rest ih =>
    intro st
    cases hbeh : beh h with
    | exn =>
      rw [zipMapCons, hbeh]
      simp only [stopLoop]
      simp [ih, List.any_cons, asyncBlocking, hbeh]
    | res pr =>
      rw [zipMapCons, hbeh]
      simp only [stopLoop]
      rw [ih]
      by_cases hb : ((execute_hook_async pr).1 == 2 && !(execute_hook_async pr).2.2.data.isEmpty) = true
      · simp [List.any_cons, asyncBlocking, hbeh, blockingOutcome, hb,
          apply_ite StopState.should_block]
      · simp only [Bool.not_eq_true] at hb
        simp [List.any_cons, asyncBlocking, hbeh, blockingOutcome, hb,
          apply_ite StopState.should_block]

lemma stopLoop_err_ext (l : List HookCommand) :
    ∀ st, ∃ tl, (stopLoop er (l.zip (l.map beh)) st).err_acc = st.err_acc ++ tl := by
  induction l with
  | nil => intro st; exact ⟨"", by simp [stopLoop]⟩
  | cons h rest ih =>
    intro st
    cases hbeh : beh h with
    | exn =>
      rw [zipMapCons, hbeh]
      simp only [stopLoop]
      exact ih _
    | res pr =>
      rw [zipMapCons, hbeh]
      simp only [stopLoop]
      by_cases hb : ((execute_hook_async pr).1 == 2 && !(execute_hook_async pr).2.2.data.isEmpty) = true
      · rw [if_pos hb]
        obtain ⟨tl, htl⟩ := ih _
        refine ⟨(execute_hook_async pr).2.2 ++ tl, ?_⟩
        rw [htl]
        simp [apply_ite StopState.err_acc, String.append_assoc]
      · rw [if_neg hb]
        obtain ⟨tl, htl⟩ := ih _
        refine ⟨tl, ?_⟩
        rw [htl]
        simp [apply_ite StopState.err_acc]

lemma stopLoop_err_contains (h : HookCommand) (pr : ProcResult)
    (hres : beh h = .res pr) (hb : blockingOutcome (execute_hook_async pr) = true)
    (l : List HookCommand) (hmem : h ∈ l) :
    ∀ st, ∃ a c,
      (stopLoop er (l.zip (l.map beh)) st).err_acc = a ++ (execute_hook_async pr).2.2 ++ c := by
  induction l with
  | nil => cases hmem
  | cons h0 rest ih =>
    intro st
    rcases List.mem_cons.mp hmem with heq | hmem'
    · subst heq
      rw [zipMapCons, hres]
      simp only [stopLoop]
      rw [if_pos (by simpa [blockingOutcome] using hb)]
      obtain ⟨tl, htl⟩ := stopLoop_err_ext beh er rest _
      refine ⟨(if !(execute_hook_async pr).2.1.data.isEmpty then { st with out_acc := st.out_acc ++ (execute_hook_async pr).2.1 } else st).err_acc, tl, ?_⟩
      rw [htl]
    · cases hbeh : beh h0 with
      | exn =>
        rw [zipMapCons, hbeh]
        simp only [stopLoop]
        exact ih hmem' _
      | res pr0 =>
        rw [zipMapCons, hbeh]
        simp only [stopLoop]
        by_cases hb0 : ((execute_hook_async pr0).1 == 2 && !(execute_hook_async pr0).2.2.data.isEmpty) = true
        · rw [if_pos hb0]; exact ih hmem' _
        · rw [if_neg hb0]; exact ih hmem' _

end StopLemmas

section MainLemmas

variable (envf : String → Option String) (arg : Option String) (stdin : StdinView)
variable (cfg : List HookMatcher) (abeh : HookCommand → AsyncOutcome)
variable (sbeh : HookCommand → ProcResult) (sched : List Nat)

/-- Reduction of `_main` to its execution phase once every early-return test
has been passed. -/
lemma dispatcher_main_exec (t : String)
    (henv : env_get_running envf = false)
    (ht : resolveTool arg stdin = some t)
    (hte : t.data.isEmpty = false)
    (hm : (matchingHooks cfg t).isEmpty = false)
    (hv : (validHooks (matchingHooks cfg t)).isEmpty = false) :
    dispatcher_main envf arg stdin cfg abeh sbeh sched =
      ((if (syncLoop sbeh (sync_hooks (validHooks (matchingHooks cfg t)))
              (asyncPhase (async_hooks (validHooks (matchingHooks cfg t))) abeh sched).1
              (asyncPhase (async_hooks (validHooks (matchingHooks cfg t))) abeh sched).2).1
          then (2 : Int) else 0),
        (syncLoop sbeh (sync_hooks (validHooks (matchingHooks cfg t)))
            (asyncPhase (async_hooks (validHooks (matchingHooks cfg t))) abeh sched).1
            (asyncPhase (async_hooks (validHooks (matchingHooks cfg t))) abeh sched).2).2) := by
  unfold dispatcher_main
  rw [henv, ht]
  simp [hte, hm, hv]

/-- Reduction of `mainTrace` to the execution-phase trace under the same
conditions. -/
lemma mainTrace_exec (t : String)
    (henv : env_get_running envf = false)
    (ht : resolveTool arg stdin = some t)
    (hte : t.data.isEmpty = false)
    (hm : (matchingHooks cfg t).isEmpty = false)
    (hv : (validHooks (matchingHooks cfg t)).isEmpty = false) :
    mainTrace envf arg stdin cfg sched
      = dispatchTrace (validHooks (matchingHooks cfg t)) sched := by
  unfold mainTrace
  rw [henv, ht]
  simp [hte, hm, hv]

end MainLemmas

lemma matchingHooks_eq_filter_flatMap (cfg : List HookMatcher) (t : String) :
    matchingHooks cfg t = (cfg.filter fun c => match_tool t c.matcher).flatMap fun c => c.hooks := by
  induction cfg with
  | nil => rfl
  | cons c rest ih =>
    simp only [matchingHooks, List.filter_cons]
    by_cases hm : match_tool t c.matcher = true
    · simp [hm, ih]
    · simp only [Bool.not_eq_true] at hm
      simp [hm, ih]

/-- Claim C1 (amended): for every discriminator, the hooks selected by the
router from the static registry are exactly the concatenation, in registry
order, of the descriptor lists of the rules whose pattern matches the
discriminator as a whole string, or matches all but one trailing newline of
the discriminator as a whole string (Python's `$` also matches just before a
final newline, so the match is not strictly whole-string). -/
theorem C1_router_registry_order (t : String) :
    matchingHooks POST_TOOL_USE_CONFIG t = routerSpecAmended POST_TOOL_USE_CONFIG t :=
  matchingHooks_eq_filter_flatMap POST_TOOL_USE_CONFIG t

/-- Claim C1 counterexample: the discriminator "Write\n" is not a whole-string
match of any alternative of any registry pattern, so the claim predicts an
empty selection; the code's `re.match("^(Write|Edit|MultiEdit)$", ...)`
nevertheless matches (Python `$` matches before a trailing newline) and the
router selects all 15 descriptors of the first rule. -/
theorem C1_counterexample :
    match_tool "Write\n" "Write|Edit|MultiEdit" = true
      ∧ spec_match_whole "Write\n" "Write|Edit|MultiEdit" = false
      ∧ routerSpecWhole POST_TOOL_USE_CONFIG "Write\n" = []
      ∧ (matchingHooks POST_TOOL_USE_CONFIG "Write\n").length = 15 :=
  ⟨by decide, by decide, by decide, by decide⟩

/-- Claim C3 counterexample: in the scenario (discriminator "Write", one rule
with an async-eligible hook returning (0, "", "") and a sequential hook
returning (2, "", "warn-me")) the dispatcher does exit 2, but its standard
error is not exactly "warn-me": the sequential path first prints a
"Hook Executed:" header line. -/
theorem C3_counterexample : c3Run.1 = 2 ∧ c3Run.2 ≠ "warn-me" :=
  ⟨by decide, by decide⟩

/-- Claim C3 (amended): in the scenario the dispatcher exits with code 2 and
its standard error is exactly the header line "Hook Executed: run-lint"
followed by a newline and then "warn-me"; the blocking stderr text appears
exactly once. -/
theorem C3_scenario_exact :
    c3Run = (2, "Hook Executed: run-lint\nwarn-me")
      ∧ countOcc "warn-me".data c3Run.2.data = 1 :=
  ⟨by decide, by decide⟩

/-- Claim C4 counterexample: on malformed standard input with no `--tool`
argument the dispatcher returns exit code 1 — a code other than 0 and 2 —
and prints an error message rather than exiting silently. -/
theorem C4_counterexample :
    (dispatcher_main (fun _ => none) none StdinView.malformed POST_TOOL_USE_CONFIG okAbeh okSbeh []).1 = 1
      ∧ ((1 : Int) ≠ 0 ∧ (1 : Int) ≠ 2)
      ∧ (dispatcher_main (fun _ => none) none StdinView.malformed POST_TOOL_USE_CONFIG okAbeh okSbeh []).2 ≠ "" :=
  ⟨by decide, by decide, by decide⟩

/-- On the inputs where `_main` returns, its code is 0, 1 or 2, and it is 1
exactly when the re-entrancy marker is unset and no truthy tool-name
discriminator resolves in the returning view. -/
lemma dispatcher_main_exit_codes (envf : String → Option String) (arg : Option String)
    (stdin : StdinView) (cfg : List HookMatcher) (abeh : HookCommand → AsyncOutcome)
    (sbeh : HookCommand → ProcResult) (sched : List Nat) :
    ((dispatcher_main envf arg stdin cfg abeh sbeh sched).1 = 0
      ∨ (dispatcher_main envf arg stdin cfg abeh sbeh sched).1 = 1
      ∨ (dispatcher_main envf arg stdin cfg abeh sbeh sched).1 = 2)
    ∧ ((dispatcher_main envf arg stdin cfg abeh sbeh sched).1 = 1
        ↔ (env_get_running envf = false ∧ truthyOpt (resolveTool arg stdin) = false)) := by
  unfold dispatcher_main
  by_cases henv : env_get_running envf = true
  · simp [henv]
  · simp only [Bool.not_eq_true] at henv
    rw [henv]
    cases hres : resolveTool arg stdin with
    | none => simp [truthyOpt]
    | some t =>
      by_cases hte : t.data.isEmpty = true
      · simp [hte, truthyOpt]
      · simp only [Bool.not_eq_true] at hte
        by_cases hm : (matchingHooks cfg t).isEmpty = true
        · simp [hte, hm, truthyOpt]
        · simp only [Bool.not_eq_true] at hm
          by_cases hv : (validHooks (matchingHooks cfg t)).isEmpty = true
          · simp [hte, hm, hv, truthyOpt]
          · simp only [Bool.not_eq_true] at hv
            simp only [hte, hm, hv, truthyOpt, Bool.false_eq_true, if_false]
            constructor
            · cases hfin : (syncLoop sbeh (sync_hooks (validHooks (matchingHooks cfg t)))
                  (asyncPhase (async_hooks (validHooks (matchingHooks cfg t))) abeh sched).1
                  (asyncPhase (async_hooks (validHooks (matchingHooks cfg t))) abeh sched).2).1
              · simp [hfin]
              · simp [hfin]
            · constructor
              · intro hcontra
                split at hcontra <;> simp_all
              · rintro ⟨-, hcontra⟩
                simp at hcontra

lemma resolveToolVal_strVal_truthy (arg : Option String) (stdin : StdinShape) (t : String)
    (hres : resolveToolVal arg stdin = ToolVal.strVal t) :
    truthyOpt (resolveTool arg (toStdinView stdin)) = true := by
  unfold resolveToolVal at hres
  by_cases harg : truthyOpt arg = true
  · rw [if_pos harg] at hres
    unfold resolveTool
    rw [if_pos harg]
    exact harg
  · rw [if_neg harg] at hres
    simp only [Bool.not_eq_true] at harg
    cases stdin with
    | empty => cases hres
    | malformed => cases hres
    | nonObject => cases hres
    | object tn cwd =>
      cases tn with
      | absent => cases hres
      | falsyOther => cases hres
      | truthyOther r => cases hres
      | str s =>
        change (if s.data.isEmpty = true then ToolVal.missing else ToolVal.strVal s) = ToolVal.strVal t at hres
        by_cases hs : s.data.isEmpty = true
        · rw [if_pos hs] at hres
          cases hres
        · simp only [Bool.not_eq_true] at hs
          change truthyOpt (resolveTool arg (StdinView.parsed (some s) none)) = true
          unfold resolveTool
          rw [harg]
          simp [truthyOpt, hs]

/-- Claim C4 (amended): every run of the dispatcher process terminates with
exit code 0, 1 or 2 and never any other code, but exit code 1 belies two
non-silent paths rather than a nothing-to-do success: when the re-entrancy
marker is unset and no truthy tool name resolves (absent or malformed input,
or an object whose `tool_name` is absent or falsy, with no usable `--tool`
argument), `_main` returns 1 after printing "Error: tool_name not provided";
and when the marker is unset and either standard input is valid JSON that is
not an object, or the resolved tool name is a truthy non-string while the
registry is non-empty, an uncaught exception (`AttributeError` at
`input_json.get`, resp. `TypeError` inside `re.match`) terminates the
interpreter with exit code 1 and a traceback — even when `--tool` supplied a
truthy name.  Every run that reaches dispatch exits 0 or 2. -/
theorem C4_process_exit_codes (envf : String → Option String) (arg : Option String)
    (stdin : StdinShape) (cfg : List HookMatcher) (abeh : HookCommand → AsyncOutcome)
    (sbeh : HookCommand → ProcResult) (sched : List Nat) :
    (exitCodeOf (dispatcher_process envf arg stdin cfg abeh sbeh sched) = 0
      ∨ exitCodeOf (dispatcher_process envf arg stdin cfg abeh sbeh sched) = 1
      ∨ exitCodeOf (dispatcher_process envf arg stdin cfg abeh sbeh sched) = 2)
    ∧ (dispatcher_process envf arg stdin cfg abeh sbeh sched = ProcTermination.crash
        ↔ (env_get_running envf = false
            ∧ (stdin = StdinShape.nonObject
              ∨ (∃ r, resolveToolVal arg stdin = ToolVal.otherVal r ∧ cfg ≠ []))))
    ∧ ((∃ s, dispatcher_process envf arg stdin cfg abeh sbeh sched = ProcTermination.exited 1 s)
        ↔ (env_get_running envf = false ∧ stdin ≠ StdinShape.nonObject
            ∧ resolveToolVal arg stdin = ToolVal.missing))
    ∧ (∀ s, dispatcher_process envf arg stdin cfg abeh sbeh sched = ProcTermination.exited 1 s
        → s = "Error: tool_name not provided\n") := by
  by_cases henv : env_get_running envf = true
  · refine ⟨?_, ?_, ?_, ?_⟩
    · left
      simp [dispatcher_process, henv, exitCodeOf]
    · simp [dispatcher_process, henv]
    · simp [dispatcher_process, henv]
    · intro s hs
      simp [dispatcher_process, henv] at hs
  · simp only [Bool.not_eq_true] at henv
    cases stdin with
    | nonObject =>
      refine ⟨?_, ?_, ?_, ?_⟩
      · right; left
        simp [dispatcher_process, henv, exitCodeOf]
      · simp [dispatcher_process, henv]
      · simp [dispatcher_process, henv]
      · intro s hs
        simp [dispatcher_process, henv] at hs
    | empty =>
      cases hres : resolveToolVal arg StdinShape.empty with
      | missing =>
        refine ⟨?_, ?_, ?_, ?_⟩
        · right; left
          simp [dispatcher_process, henv, hres, exitCodeOf]
        · simp [dispatcher_process, henv, hres]
        · simp [dispatcher_process, henv, hres]
        · intro s hs
          simp [dispatcher_process, henv, hres] at hs
          exact hs.symm
      | otherVal r =>
        exfalso
        unfold resolveToolVal at hres
        by_cases harg : truthyOpt arg = true
        · rw [if_pos harg] at hres
          cases arg with
          | none => cases hres
          | some a => cases hres
        · rw [if_neg harg] at hres
          cases hres
      | strVal t =>
        have htruthy := resolveToolVal_strVal_truthy arg StdinShape.empty t hres
        have hmc := dispatcher_main_exit_codes envf arg (toStdinView StdinShape.empty) cfg abeh sbeh sched
        have hne1 : (dispatcher_main envf arg (toStdinView StdinShape.empty) cfg abeh sbeh sched).1 ≠ 1 := by
          intro h1
          have := (hmc.2.mp h1).2
          rw [htruthy] at this
          cases this
        refine ⟨?_, ?_, ?_, ?_⟩
        · simp only [dispatcher_process, henv, hres, Bool.false_eq_true, if_false, exitCodeOf]
          exact hmc.1
        · simp [dispatcher_process, henv, hres]
        · simp only [dispatcher_process, henv, hres, Bool.false_eq_true, if_false]
          constructor
          · rintro ⟨s, hs⟩
            have := (ProcTermination.exited.injEq _ _ _ _).mp hs
            exact absurd this.1 hne1
          · rintro ⟨-, -, hcontra⟩
            cases hcontra
        · intro s hs
          simp only [dispatcher_process, henv, hres, Bool.false_eq_true, if_false] at hs
          have := (ProcTermination.exited.injEq _ _ _ _).mp hs
          exact absurd this.1 hne1
    | malformed =>
      cases hres : resolveToolVal arg StdinShape.malformed with
      | missing =>
        refine ⟨?_, ?_, ?_, ?_⟩
        · right; left
          simp [dispatcher_process, henv, hres, exitCodeOf]
        · simp [dispatcher_process, henv, hres]
        · simp [dispatcher_process, henv, hres]
        · intro s hs
          simp [dispatcher_process, henv, hres] at hs
          exact hs.symm
      | otherVal r =>
        exfalso
        unfold resolveToolVal at hres
        by_cases harg : truthyOpt arg = true
        · rw [if_pos harg] at hres
          cases arg with
          | none => cases hres
          | some a => cases hres
        · rw [if_neg harg] at hres
          cases hres
      | strVal t =>
        have htruthy := resolveToolVal_strVal_truthy arg StdinShape.malformed t hres
        have hmc := dispatcher_main_exit_codes envf arg (toStdinView StdinShape.malformed) cfg abeh sbeh sched
        have hne1 : (dispatcher_main envf arg (toStdinView StdinShape.malformed) cfg abeh sbeh sched).1 ≠ 1 := by
          intro h1
          have := (hmc.2.mp h1).2
          rw [htruthy] at this
          cases this
        refine ⟨?_, ?_, ?_, ?_⟩
        · simp only [dispatcher_process, henv, hres, Bool.false_eq_true, if_false, exitCodeOf]
          exact hmc.1
        · simp [dispatcher_process, henv, hres]
        · simp only [dispatcher_process, henv, hres, Bool.false_eq_true, if_false]
          constructor
          · rintro ⟨s, hs⟩
            have := (ProcTermination.exited.injEq _ _ _ _).mp hs
            exact absurd this.1 hne1
          · rintro ⟨-, -, hcontra⟩
            cases hcontra
        · intro s hs
          simp only [dispatcher_process, henv, hres, Bool.false_eq_true, if_false] at hs
          have := (ProcTermination.exited.injEq _ _ _ _).mp hs
          exact absurd this.1 hne1
    | object tn cwd =>
      cases hres : resolveToolVal arg (StdinShape.object tn cwd) with
      | missing =>
        refine ⟨?_, ?_, ?_, ?_⟩
        · right; left
          simp [dispatcher_process, henv, hres, exitCodeOf]
        · simp [dispatcher_process, henv, hres]
        · simp [dispatcher_process, henv, hres]
        · intro s hs
          simp [dispatcher_process, henv, hres] at hs
          exact hs.symm
      | otherVal r =>
        cases cfg with
        | nil =>
          refine ⟨?_, ?_, ?_, ?_⟩
          · left
            simp [dispatcher_process, henv, hres, exitCodeOf]
          · simp [dispatcher_process, henv, hres]
          · simp [dispatcher_process, henv, hres]
          · intro s hs
            simp [dispatcher_process, henv, hres] at hs
        | cons c cs =>
          refine ⟨?_, ?_, ?_, ?_⟩
          · right; left
            simp [dispatcher_process, henv, hres, exitCodeOf]
          · simp [dispatcher_process, henv, hres]
          · simp [dispatcher_process, henv, hres]
          · intro s hs
            simp [dispatcher_process, henv, hres] at hs
      | strVal t =>
        have htruthy := resolveToolVal_strVal_truthy arg (StdinShape.object tn cwd) t hres
        have hmc := dispatcher_main_exit_codes envf arg (toStdinView (StdinShape.object tn cwd)) cfg abeh sbeh sched
        have hne1 : (dispatcher_main envf arg (toStdinView (StdinShape.object tn cwd)) cfg abeh sbeh sched).1 ≠ 1 := by
          intro h1
          have := (hmc.2.mp h1).2
          rw [htruthy] at this
          cases this
        refine ⟨?_, ?_, ?_, ?_⟩
        · simp only [dispatcher_process, henv, hres, Bool.false_eq_true, if_false, exitCodeOf]
          exact hmc.1
        · simp [dispatcher_process, henv, hres]
        · simp only [dispatcher_process, henv, hres, Bool.false_eq_true, if_false]
          constructor
          · rintro ⟨s, hs⟩
            have := (ProcTermination.exited.injEq _ _ _ _).mp hs
            exact absurd this.1 hne1
          · rintro ⟨-, -, hcontra⟩
            cases hcontra
        · intro s hs
          simp only [dispatcher_process, henv, hres, Bool.false_eq_true, if_false] at hs
          have := (ProcTermination.exited.injEq _ _ _ _).mp hs
          exact absurd this.1 hne1

/-- Claim C4 witness: the exit-code range at a concrete crashing input —
valid non-object JSON on standard input with a truthy `--tool Write`. -/
theorem C4_process_exit_codes_witness :
    exitCodeOf (dispatcher_process (fun _ => none) (some "Write") StdinShape.nonObject POST_TOOL_USE_CONFIG okAbeh okSbeh []) = 0
      ∨ exitCodeOf (dispatcher_process (fun _ => none) (some "Write") StdinShape.nonObject POST_TOOL_USE_CONFIG okAbeh okSbeh []) = 1
      ∨ exitCodeOf (dispatcher_process (fun _ => none) (some "Write") StdinShape.nonObject POST_TOOL_USE_CONFIG okAbeh okSbeh []) = 2 :=
  (C4_process_exit_codes (fun _ => none) (some "Write") StdinShape.nonObject POST_TOOL_USE_CONFIG okAbeh okSbeh []).1

lemma asyncPhase_flag (hooks : List HookCommand) (abeh : HookCommand → AsyncOutcome)
    (sched : List Nat) :
    (asyncPhase hooks abeh sched).1 = hooks.any (asyncBlocking abeh) := by
  simp only [asyncPhase, gather]
  rw [asyncLoop_flag]
  simp

lemma stop_main_verdict (scfg : List HookCommand) (beh : HookCommand → AsyncOutcome)
    (er : HookCommand → String) (ssched : List Nat) :
    ((stop_main scfg beh er ssched).1 = 2 ↔ scfg.any (asyncBlocking beh) = true)
      ∧ (∀ h ∈ scfg, ∀ pr, beh h = .res pr →
          blockingOutcome (execute_hook_async pr) = true →
          ∃ a c, (stop_main scfg beh er ssched).2.2
            = a ++ (execute_hook_async pr).2.2 ++ c) := by
  cases scfg with
  | nil =>
    constructor
    · simp [stop_main]
    · intro h hmem; cases hmem
  | cons c cs =>
    have hflag := stopLoop_flag beh er (c :: cs)
      (⟨false, "", "", ""⟩ : StopState)
    constructor
    · simp only [stop_main, gather, List.isEmpty_cons, Bool.false_eq_true, if_false]
      simp only [hflag, Bool.false_or]
      cases hany : (c :: cs).any (asyncBlocking beh) <;> simp [hany]
    · intro h hmem pr hres hb
      obtain ⟨a, d, had⟩ :=
        stopLoop_err_contains beh er h pr hres hb (c :: cs) hmem
          (⟨false, "", "", ""⟩ : StopState)
      refine ⟨(stopLoop er ((c :: cs).zip ((c :: cs).map beh)) ⟨false, "", "", ""⟩).exn_lines ++ a, d, ?_⟩
      have : (stop_main (c :: cs) beh er ssched).2.2
          = (stopLoop er ((c :: cs).zip ((c :: cs).map beh)) ⟨false, "", "", ""⟩).exn_lines
            ++ (stopLoop er ((c :: cs).zip ((c :: cs).map beh)) ⟨false, "", "", ""⟩).err_acc := rfl
      rw [this, had]
      simp [String.append_assoc]

/-- Claim C2: a hook outcome is blocking iff its exit code is 2 and its
stderr is non-empty; once the execution phase is reached, the dispatcher
(`post_tool_use.py`) exits 2 iff some outcome of either partition is blocking
and exits 0 otherwise, and the standard error it emits contains every
blocking hook's stderr text; the same holds of the Stop-event dispatcher
(`stop.py`) for its single gathered batch. -/
theorem C2_blocking_verdict (envf : String → Option String) (arg : Option String)
    (stdin : StdinView) (cfg : List HookMatcher) (abeh : HookCommand → AsyncOutcome)
    (sbeh : HookCommand → ProcResult) (sched : List Nat) (t : String)
    (henv : env_get_running envf = false)
    (ht : resolveTool arg stdin = some t)
    (hte : t.data.isEmpty = false)
    (hm : (matchingHooks cfg t).isEmpty = false)
    (hv : (validHooks (matchingHooks cfg t)).isEmpty = false) :
    ((dispatcher_main envf arg stdin cfg abeh sbeh sched).1 = 2 ↔
        ((async_hooks (validHooks (matchingHooks cfg t))).any (asyncBlocking abeh)
          || (sync_hooks (validHooks (matchingHooks cfg t))).any (syncBlocking sbeh)) = true)
      ∧ ((dispatcher_main envf arg stdin cfg abeh sbeh sched).1 = 2
          ∨ (dispatcher_main envf arg stdin cfg abeh sbeh sched).1 = 0)
      ∧ (∀ h ∈ async_hooks (validHooks (matchingHooks cfg t)), ∀ pr, abeh h = .res pr →
          blockingOutcome (execute_hook_async pr) = true →
          ∃ a c, (dispatcher_main envf arg stdin cfg abeh sbeh sched).2
            = a ++ (execute_hook_async pr).2.2 ++ c)
      ∧ (∀ h ∈ sync_hooks (validHooks (matchingHooks cfg t)),
          syncBlocking sbeh h = true →
          ∃ a c, (dispatcher_main envf arg stdin cfg abeh sbeh sched).2
            = a ++ (execute_hook_async (sbeh h)).2.2 ++ c)
      ∧ (∀ (scfg : List HookCommand) (beh : HookCommand → AsyncOutcome)
          (er : HookCommand → String) (ssched : List Nat),
          ((stop_main scfg beh er ssched).1 = 2 ↔ scfg.any (asyncBlocking beh) = true)
            ∧ (∀ h ∈ scfg, ∀ pr, beh h = .res pr →
                blockingOutcome (execute_hook_async pr) = true →
                ∃ a c, (stop_main scfg beh er ssched).2.2
                  = a ++ (execute_hook_async pr).2.2 ++ c)) := by
  have hmain := dispatcher_main_exec envf arg stdin cfg abeh sbeh sched t henv ht hte hm hv
  have har1 := asyncPhase_flag (async_hooks (validHooks (matchingHooks cfg t))) abeh sched
  have hfin1 : (syncLoop sbeh (sync_hooks (validHooks (matchingHooks cfg t)))
      (asyncPhase (async_hooks (validHooks (matchingHooks cfg t))) abeh sched).1
      (asyncPhase (async_hooks (validHooks (matchingHooks cfg t))) abeh sched).2).1
      = ((async_hooks (validHooks (matchingHooks cfg t))).any (asyncBlocking abeh)
        || (sync_hooks (validHooks (matchingHooks cfg t))).any (syncBlocking sbeh)) := by
    rw [syncLoop_flag, har1]
  refine ⟨?_, ?_, ?_, ?_, ?_⟩
  · rw [hmain]
    simp only [hfin1]
    cases hany : ((async_hooks (validHooks (matchingHooks cfg t))).any (asyncBlocking abeh)
        || (sync_hooks (validHooks (matchingHooks cfg t))).any (syncBlocking sbeh)) <;>
      simp [hany]
  · rw [hmain]
    cases hfin : (syncLoop sbeh (sync_hooks (validHooks (matchingHooks cfg t)))
        (asyncPhase (async_hooks (validHooks (matchingHooks cfg t))) abeh sched).1
        (asyncPhase (async_hooks (validHooks (matchingHooks cfg t))) abeh sched).2).1 <;>
      simp [hfin]
  · intro h hmem pr hres hb
    obtain ⟨a, c, hac⟩ :=
      asyncLoop_contains abeh h pr hres hb (async_hooks (validHooks (matchingHooks cfg t))) hmem false ""
    obtain ⟨tl, htl⟩ := syncLoop_ext sbeh (sync_hooks (validHooks (matchingHooks cfg t)))
      (asyncPhase (async_hooks (validHooks (matchingHooks cfg t))) abeh sched).1
      (asyncPhase (async_hooks (validHooks (matchingHooks cfg t))) abeh sched).2
    have har2 : (asyncPhase (async_hooks (validHooks (matchingHooks cfg t))) abeh sched).2
        = a ++ (execute_hook_async pr).2.2 ++ c := hac
    refine ⟨a, c ++ tl, ?_⟩
    rw [hmain]
    rw [htl, har2]
    simp [String.append_assoc]
  · intro h hmem hb
    obtain ⟨a, c, hac⟩ :=
      syncLoop_contains sbeh h hb (sync_hooks (validHooks (matchingHooks cfg t))) hmem
        (asyncPhase (async_hooks (validHooks (matchingHooks cfg t))) abeh sched).1
        (asyncPhase (async_hooks (validHooks (matchingHooks cfg t))) abeh sched).2
    refine ⟨a, c, ?_⟩
    rw [hmain]
    exact hac
  · intro scfg beh er ssched
    exact stop_main_verdict scfg beh er ssched

/-- Claim C2 witness: a concrete run through the execution phase, picking the
exit-code disjunction of the theorem. -/
theorem C2_blocking_verdict_witness :
    (dispatcher_main (fun _ => none) (some "T") StdinView.empty c2Config okAbeh c2Sbeh []).1 = 2
      ∨ (dispatcher_main (fun _ => none) (some "T") StdinView.empty c2Config okAbeh c2Sbeh []).1 = 0 :=
  (C2_blocking_verdict (fun _ => none) (some "T") StdinView.empty c2Config okAbeh c2Sbeh [] "T"
    rfl rfl rfl rfl rfl).2.1

/-- Claim C5 counterexample: the timeout outcome synthesized by the executor
has stderr "Hook execution timed out", not the exact string "timed out". -/
theorem C5_counterexample :
    execute_hook_async ProcResult.timeout = (1, "", "Hook execution timed out")
      ∧ ("Hook execution timed out" : String) ≠ "timed out" :=
  ⟨rfl, by decide⟩

/-- Claim C5 (amended): the executor is total (never propagates an
exception): a timeout becomes the non-blocking outcome
(1, "", "Hook execution timed out"), a launch failure becomes the
non-blocking outcome (1, "", "Hook execution failed: " ++ description), and
in the scenario where the only hook matching "Task" times out the dispatcher
exits 0 with no output. -/
theorem C5_executor_total (m : String) :
    execute_hook_async ProcResult.timeout = (1, "", "Hook execution timed out")
      ∧ execute_hook_async (ProcResult.launchFail m) = (1, "", "Hook execution failed: " ++ m)
      ∧ blockingOutcome (execute_hook_async ProcResult.timeout) = false
      ∧ blockingOutcome (execute_hook_async (ProcResult.launchFail m)) = false
      ∧ dispatcher_main (fun _ => none) (some "Task") StdinView.empty POST_TOOL_USE_CONFIG c5Abeh c5Sbeh [] = (0, "") :=
  ⟨rfl, rfl, rfl, rfl, by decide⟩

/-- Claim C6: for every valid hook list and every completion order of the
gathered batch, the run trace decomposes into a segment that contains the
start and the resolution of every concurrency-eligible hook and no event of
any sequential hook, followed by exactly the sequential hooks executed one at
a time — each started and finished before the next starts — in registry
order. -/
theorem C6_partition_order (valid : List HookCommand) (sched : List Nat)
    (hperm : List.Perm (applyIdx sched (async_hooks valid)) (async_hooks valid)) :
    ∃ p, dispatchTrace valid sched
        = p ++ ((sync_hooks valid).flatMap fun h => [Ev.start h, Ev.finish h])
      ∧ (∀ a ∈ async_hooks valid, Ev.start a ∈ p ∧ Ev.finish a ∈ p)
      ∧ (∀ s ∈ sync_hooks valid, Ev.start s ∉ p ∧ Ev.finish s ∉ p) := by
  refine ⟨(async_hooks valid).map Ev.start
      ++ (applyIdx sched (async_hooks valid)).map Ev.finish, ?_, ?_, ?_⟩
  · simp [dispatchTrace, List.append_assoc]
  · intro a ha
    constructor
    · exact List.mem_append_left _ (List.mem_map_of_mem _ ha)
    · exact List.mem_append_right _ (List.mem_map_of_mem _ (hperm.mem_iff.mpr ha))
  · intro s hs
    have hsa : s.asyncable = false := by
      have hmem := List.mem_filter.mp hs
      simpa using hmem.2
    constructor
    · intro hmem
      rcases List.mem_append.mp hmem with hm1 | hm2
      · rcases List.mem_map.mp hm1 with ⟨a, ha, heq⟩
        have haa : a.asyncable = true := (List.mem_filter.mp ha).2
        have : a = s := by injection heq
        rw [this, hsa] at haa
        cases haa
      · rcases List.mem_map.mp hm2 with ⟨a, _, heq⟩
        cases heq
    · intro hmem
      rcases List.mem_append.mp hmem with hm1 | hm2
      · rcases List.mem_map.mp hm1 with ⟨a, _, heq⟩
        cases heq
      · rcases List.mem_map.mp hm2 with ⟨a, ha, heq⟩
        have ha' : a ∈ async_hooks valid := hperm.subset ha
        have haa : a.asyncable = true := (List.mem_filter.mp ha').2
        have : a = s := by injection heq
        rw [this, hsa] at haa
        cases haa

/-- Claim C6 witness: the decomposition at a concrete two-hook valid list
with the identity completion order. -/
theorem C6_partition_order_witness :
    ∃ p, dispatchTrace c6Valid [0]
        = p ++ ((sync_hooks c6Valid).flatMap fun h => [Ev.start h, Ev.finish h])
      ∧ (∀ a ∈ async_hooks c6Valid, Ev.start a ∈ p ∧ Ev.finish a ∈ p)
      ∧ (∀ s ∈ sync_hooks c6Valid, Ev.start s ∉ p ∧ Ev.finish s ∉ p) :=
  C6_partition_order c6Valid [0] (List.Perm.refl _)

lemma mainTrace_eq (envf : String → Option String) (arg : Option String)
    (stdin : StdinView) (cfg : List HookMatcher) (sched : List Nat) :
    mainTrace envf arg stdin cfg sched = []
      ∨ ∃ t, mainTrace envf arg stdin cfg sched
          = dispatchTrace (validHooks (matchingHooks cfg t)) sched := by
  unfold mainTrace
  by_cases henv : env_get_running envf = true
  · left; simp [henv]
  · simp only [Bool.not_eq_true] at henv
    rw [henv]
    cases hres : resolveTool arg stdin with
    | none => left; simp
    | some t =>
      by_cases hte : t.data.isEmpty = true
      · left; simp [hte]
      · simp only [Bool.not_eq_true] at hte
        by_cases hm : (matchingHooks cfg t).isEmpty = true
        · left; simp [hte, hm]
        · simp only [Bool.not_eq_true] at hm
          by_cases hv : (validHooks (matchingHooks cfg t)).isEmpty = true
          · left; simp [hte, hm, hv]
          · simp only [Bool.not_eq_true] at hv
            right; exact ⟨t, by simp [hte, hm, hv]⟩

/-- Claim C7: the valid-hook filter removes every descriptor whose command
string contains the dispatcher's self-reference marker `post_tool_use.py`;
the filter is idempotent; and no event of any whole run involves a
self-referential hook — the exclusion happens before any execution. -/
theorem C7_self_filter :
    (∀ l : List HookCommand, validHooks (validHooks l) = validHooks l)
      ∧ (∀ (l : List HookCommand) (h : HookCommand),
          h ∈ l → is_self_hook h.command = true → h ∉ validHooks l)
      ∧ (∀ (l : List HookCommand) (h : HookCommand),
          h ∈ validHooks l → is_self_hook h.command = false)
      ∧ (∀ (envf : String → Option String) (arg : Option String) (stdin : StdinView)
          (cfg : List HookMatcher) (sched : List Nat) (h : HookCommand),
          Ev.start h ∈ mainTrace envf arg stdin cfg sched → is_self_hook h.command = false) := by
  have valid_not_self : ∀ (l : List HookCommand) (h : HookCommand),
      h ∈ validHooks l → is_self_hook h.command = false := by
    intro l h hmem
    have hp := (List.mem_filter.mp hmem).2
    simp only [Bool.and_eq_true, Bool.not_eq_true'] at hp
    exact hp.2
  refine ⟨?_, ?_, valid_not_self, ?_⟩
  · intro l
    unfold validHooks
    rw [List.filter_filter]
    apply List.filter_congr
    intro h _
    simp
  · intro l h hmem hself hcontra
    have := valid_not_self l h hcontra
    rw [hself] at this
    cases this
  · intro envf arg stdin cfg sched h hmem
    rcases mainTrace_eq envf arg stdin cfg sched with hnil | ⟨t, heq⟩
    · rw [hnil] at hmem
      cases hmem
    · rw [heq] at hmem
      unfold dispatchTrace at hmem
      rcases List.mem_append.mp hmem with hm12 | hm3
      · rcases List.mem_append.mp hm12 with hm1 | hm2
        · rcases List.mem_map.mp hm1 with ⟨a, ha, hev⟩
          have haeq : a = h := by injection hev
          subst haeq
          exact valid_not_self _ a (List.mem_of_mem_filter ha)
        · rcases List.mem_map.mp hm2 with ⟨a, _, hev⟩
          cases hev
      · rcases List.mem_flatMap.mp hm3 with ⟨a, ha, hin⟩
        rcases List.mem_cons.mp hin with hev | hin'
        · have haeq : a = h := by injection hev.symm
          subst haeq
          exact valid_not_self _ a (List.mem_of_mem_filter ha)
        · rcases List.mem_cons.mp hin' with hev | hnil
          · cases hev
          · cases hnil

/-- Claim C7 witness: the filter at a concrete list holding one
self-referential descriptor and one ordinary descriptor. -/
theorem C7_self_filter_witness :
    validHooks (validHooks [selfHookCmd, otherHookCmd]) = validHooks [selfHookCmd, otherHookCmd]
      ∧ selfHookCmd ∉ validHooks [selfHookCmd, otherHookCmd] :=
  ⟨C7_self_filter.1 [selfHookCmd, otherHookCmd],
    C7_self_filter.2.1 [selfHookCmd, otherHookCmd] selfHookCmd
      (List.mem_cons_self _ _) (by decide)⟩

/-- Claim C8 counterexample: with completion order [1, 0] (hook B's future
resolves before hook A's), the claim predicts the concatenation "B" then "A";
the dispatcher instead emits "A" then "B", because `asyncio.gather` returns
results in submission order and the aggregation loop follows that order. -/
theorem C8_counterexample :
    c8Run [1, 0] = (2, "AB")
      ∧ resolutionOrderStderr (async_hooks (validHooks (matchingHooks c8Config "Write"))) c8Abeh [1, 0] = "BA"
      ∧ ("AB" : String) ≠ "BA" :=
  ⟨by decide, by decide, by decide⟩

/-- Claim C8 (amended): in the two-concurrent-blocking-hook scenario the
final stderr is "A" followed by "B" in the order the hooks were submitted to
the gathered batch (registry order), whatever the completion order; each
message appears in full, as one contiguous unit, exactly once. -/
theorem C8_gather_order (sched : List Nat) :
    c8Run sched = (2, "A" ++ "B")
      ∧ countOcc "A".data (c8Run sched).2.data = 1
      ∧ countOcc "B".data (c8Run sched).2.data = 1 :=
  ⟨rfl, rfl, rfl⟩

/-- Claim C9: when the dispatch-reentrancy marker `POST_TOOL_USE_RUNNING` is
already set (non-empty) at entry, the dispatcher returns exit code 0 at once
with no output and launches no subprocess; conversely the executor sets that
marker to "1" in the environment of every child it launches, and a nested
dispatcher reading that child environment would short-circuit. -/
theorem C9_reentrancy_guard :
    (∀ (envf : String → Option String) (arg : Option String) (stdin : StdinView)
        (cfg : List HookMatcher) (abeh : HookCommand → AsyncOutcome)
        (sbeh : HookCommand → ProcResult) (sched : List Nat),
        env_get_running envf = true →
          dispatcher_main envf arg stdin cfg abeh sbeh sched = (0, "")
            ∧ mainTrace envf arg stdin cfg sched = [])
      ∧ (∀ (parent : String → Option String) (cwd : String),
          child_env parent cwd "POST_TOOL_USE_RUNNING" = some "1"
            ∧ env_get_running (child_env parent cwd) = true) := by
  constructor
  · intro envf arg stdin cfg abeh sbeh sched henv
    constructor
    · unfold dispatcher_main
      rw [henv]
      simp
    · unfold mainTrace
      rw [henv]
      simp
  · intro parent cwd
    exact ⟨rfl, rfl⟩

/-- Claim C9 witness: a concrete environment with the marker set. -/
theorem C9_reentrancy_guard_witness :
    dispatcher_main (fun _ => some "1") (some "Write") StdinView.empty POST_TOOL_USE_CONFIG okAbeh okSbeh [] = (0, "")
      ∧ mainTrace (fun _ => some "1") (some "Write") StdinView.empty POST_TOOL_USE_CONFIG [] = [] :=
  C9_reentrancy_guard.1 (fun _ => some "1") (some "Write") StdinView.empty POST_TOOL_USE_CONFIG okAbeh okSbeh [] rfl

lemma asyncLoop_skip_exn (abeh : HookCommand → AsyncOutcome) (h : HookCommand)
    (hexn : abeh h = .exn) (l2 : List HookCommand) :
    ∀ (l1 : List HookCommand) (b : Bool) (s : String),
      asyncLoop ((l1 ++ h :: l2).zip ((l1 ++ h :: l2).map abeh)) b s
        = asyncLoop ((l1 ++ l2).zip ((l1 ++ l2).map abeh)) b s := by
  intro l1
  induction l1 with
  | nil =>
    intro b s
    simp only [List.nil_append]
    rw [zipMapCons, hexn]
    simp only [asyncLoop]
  | cons c l1' ih =>
    intro b s
    simp only [List.cons_append]
    rw [zipMapCons, zipMapCons]
    cases hc : abeh c with
    | exn => simp only [asyncLoop]; exact ih b s
    | res pr =>
      simp only [asyncLoop]
      by_cases hb : ((execute_hook_async pr).1 == 2 && !(execute_hook_async pr).2.2.data.isEmpty) = true
      · rw [if_pos hb, if_pos hb]
        exact ih true (s ++ (execute_hook_async pr).2.2)
      · rw [if_neg hb, if_neg hb]
        exact ih b s

/-- Claim C10: a concurrent hook whose gathered result is an exception object
is silently skipped by the aggregation loop: the concurrent phase behaves
exactly as if the hook were absent — it contributes no stderr text, can never
make the verdict blocking, and the processing of all sibling hooks' outcomes
is unchanged (for any completion orders). -/
theorem C10_exception_skipped (abeh : HookCommand → AsyncOutcome)
    (l1 l2 : List HookCommand) (h : HookCommand) (sched sched2 : List Nat)
    (hexn : abeh h = .exn) :
    asyncPhase (l1 ++ h :: l2) abeh sched = asyncPhase (l1 ++ l2) abeh sched2 := by
  simp only [asyncPhase, gather]
  exact asyncLoop_skip_exn abeh h hexn l2 l1 false ""

/-- Claim C10 witness: a concrete batch where the first hook's task raised
and the sibling blocks with stderr "A". -/
theorem C10_exception_skipped_witness :
    asyncPhase [c10ExnHook, c10OkHook] c10Abeh [0, 1] = asyncPhase [c10OkHook] c10Abeh [0] :=
  C10_exception_skipped c10Abeh [] [c10OkHook] c10ExnHook [0, 1] [0] rfl

end Dispatch
